import Mathlib

/-!
# Verification of the product-bulk-edit inventory pipelines

This file embeds the bulk inventory reconciliation engine of the import
route (src/unnamed/part_005, the revision with duplicate detection,
case-insensitive location matching and the missing-location check) and the
export flattener (src/app/routes/app.export-product-data.jsx and
src/unnamed/part_004), and proves properties of them.

The remote commerce store is made explicit: the per-location available
quantities form a `Stock` function that variant lookups read and that the
inventory-set mutation updates.  GraphQL calls issued by the engine are
logged in a `Call` list so that statements such as "no mutation is issued
for this row" can be expressed directly.
-/

/-- JavaScript digit value of a character for a given radix. -/
def digitVal (radix : Nat) (c : Char) : Option Nat :=
  let v : Option Nat :=
    if ('0' ≤ c ∧ c ≤ '9') then some (c.toNat - '0'.toNat)
    else if ('a' ≤ c ∧ c ≤ 'z') then some (c.toNat - 'a'.toNat + 10)
    else if ('A' ≤ c ∧ c ≤ 'Z') then some (c.toNat - 'A'.toNat + 10)
    else none
  match v with
  | some n => if n < radix then some n else none
  | none => none

/-- Accumulate the maximal digit prefix; `none` when no digit was read. -/
def parseDigits (radix : Nat) (acc : Option Nat) : List Char → Option Nat
  | [] => acc
  | c :: cs =>
    match digitVal radix c with
    | some d => parseDigits radix (some ((acc.getD 0) * radix + d)) cs
    | none => acc

/-- JavaScript parseInt on a string with no explicit radix: skip leading
whitespace, read an optional sign, detect a hexadecimal 0x prefix, then read
the maximal digit prefix; NaN (here `none`) when no digit is read. -/
def parseIntJS (s : String) : Option Int :=
  let cs := s.toList.dropWhile (fun c => c.isWhitespace)
  let signAndRest : Int × List Char :=
    match cs with
    | '-' :: rest => (-1, rest)
    | '+' :: rest => (1, rest)
    | _ => (1, cs)
  let radixAndRest : Nat × List Char :=
    match signAndRest.2 with
    | '0' :: 'x' :: rest => (16, rest)
    | '0' :: 'X' :: rest => (16, rest)
    | _ => (10, signAndRest.2)
  match parseDigits radixAndRest.1 none radixAndRest.2 with
  | some n => some (signAndRest.1 * (n : Int))
  | none => none

/-- A named quantity on an inventory level, as returned by the variant query. -/
structure Qty where
  name : String
  quantity : Int
deriving DecidableEq

/-- One inventory level of a variant: a location id plus its named quantities. -/
structure InvLevel where
  locationId : String
  quantities : List Qty
deriving DecidableEq

/-- The variant snapshot consumed by the import action. -/
structure Variant where
  inventoryItemId : String
  inventoryLevels : List InvLevel
deriving DecidableEq

/-- Catalog-side description of a variant: its inventory item id and the
location ids at which it has inventory levels.  The available quantities
themselves live in the mutable `Stock`. -/
structure VariantDef where
  inventoryItemId : String
  levelLocations : List String
deriving DecidableEq

/-- A store location as listed by the locations query. -/
structure LocationEntry where
  id : String
  name : String
deriving DecidableEq

/-- One parsed spreadsheet row.  Cells of the three columns the engine reads;
a missing cell is `none`. -/
structure ImportRow where
  sku : Option String
  quantityAvailable : Option String
  inventoryLocation : Option String
deriving DecidableEq

/-- The per-location available quantities of the remote store, keyed by
inventory item id and location id. -/
def Stock : Type := String → String → Int

/-- The remote inventory-set mutation writes an absolute quantity. -/
def setStock (stock : Stock) (inventoryItemId locationId : String) (quantity : Int) : Stock :=
  fun item loc =>
    if item == inventoryItemId && loc == locationId then quantity else stock item loc

/-- The immutable context of one import invocation: the selected location
mode, the location directory, the catalog behind variant-by-SKU lookup, and
the user errors the inventory-set mutation reports for given arguments. -/
structure Env where
  locationId : String
  selectedLocationName : String
  allLocations : List LocationEntry
  catalog : String → Option VariantDef
  mutErrors : String → String → Int → List String

/-- View of a catalog variant at the current stock, shaped like the GraphQL
response: one level per listed location, with its available quantity. -/
def viewVariant (stock : Stock) (vd : VariantDef) : Variant :=
  { inventoryItemId := vd.inventoryItemId
    inventoryLevels := vd.levelLocations.map (fun loc =>
      { locationId := loc
        quantities := [{ name := "available", quantity := stock vd.inventoryItemId loc }] }) }

/-- findVariantBySKU: first variant matching the SKU, with its levels. -/
def findVariantBySku (env : Env) (stock : Stock) (sku : String) : Option Variant :=
  (env.catalog sku).map (viewVariant stock)

/-- The aggregate result object built by the import action. -/
structure Results where
  total : Nat
  updated : Nat
  errors : List String
  failedRows : List (ImportRow × String)
  skippedRows : List (ImportRow × String)
deriving DecidableEq

/-- A remote call issued while processing rows. -/
inductive Call where
  | variantLookup (sku : String)
  | inventorySet (inventoryItemId locationId : String) (quantity : Int)
deriving DecidableEq

/-- Full engine state threaded through the row loop. -/
structure EngineState where
  results : Results
  processedCombinations : List String
  calls : List Call
  stock : Stock

/-- Record a failed row: one message in errors, one row in failedRows. -/
def failRow (st : EngineState) (row : ImportRow) (errorMsg reason : String) : EngineState :=
  { st with results := { st.results with
      errors := st.results.errors ++ [errorMsg]
      failedRows := st.results.failedRows ++ [(row, reason)] } }

/-- Record a skipped row. -/
def skipRow (st : EngineState) (row : ImportRow) (reason : String) : EngineState :=
  { st with results := { st.results with
      skippedRows := st.results.skippedRows ++ [(row, reason)] } }

/-- The sheet location string: the Inventory Location cell when present and
truthy, trimmed; otherwise the empty string. -/
def sheetLocationOf (row : ImportRow) : String :=
  match row.inventoryLocation with
  | none => ""
  | some raw => if raw == "" then "" else raw.trim

/-- The quantity cell run through parseInt; a missing cell parses to NaN. -/
def rowQuantity (row : ImportRow) : Option Int :=
  match row.quantityAvailable with
  | none => none
  | some raw => parseIntJS raw

/-- Lowercasing as used by the case-insensitive comparisons (JS
toLowerCase; ASCII letters). -/
def toLowerStr (s : String) : String := String.mk (s.data.map Char.toLower)

/-- Outcome of the location-resolution step of one row. -/
inductive ResolveResult where
  | resolved (targetLocationId targetLocationName : String)
  | failures (errorMsg reason : String)
deriving DecidableEq

/-- Location resolution.  In All Locations mode the sheet location is
required and matched case-insensitively against the store directory; in
single-location mode a non-empty sheet location must match the selected
location name case-insensitively, and an empty one falls through to the
selected location. -/
def resolveLocation (env : Env) (sku sheetLocation : String) : ResolveResult :=
  if env.locationId == "ALL_LOCATIONS" then
    if sheetLocation == "" then
      .failures ("Skipped SKU " ++ sku ++ ": Inventory Location is required when \"All Locations\" is selected")
        "Inventory Location is required for All Locations mode"
    else
      match env.allLocations.find? (fun loc => toLowerStr loc.name == toLowerStr sheetLocation) with
      | some foundLocation => .resolved foundLocation.id foundLocation.name
      | none =>
        .failures ("Skipped SKU " ++ sku ++ ": Location \x27" ++ sheetLocation ++ "\x27 not found in store")
          ("Location \x27" ++ sheetLocation ++ "\x27 not found in store")
  else
    if sheetLocation != "" && toLowerStr sheetLocation != toLowerStr env.selectedLocationName then
      .failures ("Skipped SKU " ++ sku ++ ": Location in sheet \x27" ++ sheetLocation
          ++ "\x27 does not match selected location \x27" ++ env.selectedLocationName ++ "\x27")
        ("Location mismatch: \x27" ++ sheetLocation ++ "\x27 ≠ \x27" ++ env.selectedLocationName ++ "\x27")
    else
      .resolved env.locationId env.selectedLocationName

/-- Scan of the variant levels for the target location: `none` when the
variant has no level there, otherwise the first available quantity
(defaulting to 0 when the available entry is absent). -/
def currentQtyAt (variant : Variant) (targetLocationId : String) : Option Int :=
  match variant.inventoryLevels.find? (fun level => level.locationId == targetLocationId) with
  | none => none
  | some level =>
    match level.quantities.find? (fun q => q.name == "available") with
    | some availableQty => some availableQty.quantity
    | none => some 0

/-- One iteration of the row loop of the import action
(src/unnamed/part_005, lines 99 to 275). -/
def processRow (env : Env) (st : EngineState) (row : ImportRow) : EngineState :=
  match row.sku with
  | none => st
  | some sku =>
    if sku == "" || sku == "SKU" then st
    else
      match rowQuantity row with
      | none =>
        failRow st row ("Skipped SKU " ++ sku ++ ": Invalid or missing quantity value")
          "Invalid or missing quantity value"
      | some quantity =>
        match resolveLocation env sku (sheetLocationOf row) with
        | .failures errorMsg reason => failRow st row errorMsg reason
        | .resolved targetLocationId targetLocationName =>
          let combinationKey := sku ++ "|" ++ targetLocationName
          if st.processedCombinations.contains combinationKey then
            failRow st row ("Skipped SKU " ++ sku ++ ": You have identical row having same SKU and location")
              "You have identical row having same SKU and location"
          else
            let st1 : EngineState :=
              { st with processedCombinations := st.processedCombinations ++ [combinationKey]
                        calls := st.calls ++ [Call.variantLookup sku] }
            match findVariantBySku env st1.stock sku with
            | none => failRow st1 row ("Variant not found for SKU: " ++ sku) "Variant not found"
            | some variant =>
              match currentQtyAt variant targetLocationId with
              | none =>
                failRow st1 row ("Skipped SKU " ++ sku ++ ": SKU don\x27t have this location")
                  "SKU don\x27t have this location"
              | some currentQuantity =>
                if currentQuantity == quantity then
                  skipRow st1 row "Quantity already matches"
                else
                  let st2 : EngineState :=
                    { st1 with calls := st1.calls ++
                        [Call.inventorySet variant.inventoryItemId targetLocationId quantity] }
                  match env.mutErrors variant.inventoryItemId targetLocationId quantity with
                  | [] =>
                    { st2 with
                      results := { st2.results with updated := st2.results.updated + 1 }
                      stock := setStock st2.stock variant.inventoryItemId targetLocationId quantity }
                  | errorMsg :: _ =>
                    failRow st2 row ("Error updating SKU " ++ sku ++ ": " ++ errorMsg) errorMsg

/-- The whole import action loop: sequential fold over the parsed rows,
starting from empty result lists with total set to the row count. -/
def reconcile (env : Env) (stock : Stock) (rows : List ImportRow) : EngineState :=
  rows.foldl (processRow env)
    { results := { total := rows.length, updated := 0, errors := [], failedRows := [], skippedRows := [] }
      processedCombinations := []
      calls := []
      stock := stock }

/-- A row silently dropped by the header and blank-SKU filter. -/
def isDroppedRow (row : ImportRow) : Bool :=
  match row.sku with
  | none => true
  | some sku => sku == "" || sku == "SKU"

/-! ## Export flattener (src/app/routes/app.export-product-data.jsx, lines 89 to 155) -/

/-- A spreadsheet cell of the export: a string or a number. -/
inductive Cell where
  | str (s : String)
  | num (n : Int)
deriving DecidableEq

/-- A named quantity of an export inventory level (only available is queried). -/
structure ExportQty where
  quantity : Int
deriving DecidableEq

/-- An inventory level of the export query: location id, name, quantities. -/
structure ExportLevel where
  locationId : String
  locationName : String
  quantities : List ExportQty
deriving DecidableEq

/-- A product variant of the export query. -/
structure ExportVariant where
  sku : Option String
  selectedOptions : List String
  inventoryLevels : List ExportLevel
deriving DecidableEq

/-- A product of the export query. -/
structure ExportProduct where
  title : String
  variants : List ExportVariant
deriving DecidableEq

/-- One denormalized export row. -/
structure ExportRow where
  productTitle : String
  sku : String
  option1 : String
  option2 : String
  option3 : String
  inventoryLocation : String
  quantityAvailable : Cell
deriving DecidableEq

/-- The export row built for one variant and one inventory level. -/
def levelRow (productTitle : String) (variant : ExportVariant) (level : ExportLevel) : ExportRow :=
  { productTitle := productTitle
    sku := variant.sku.getD ""
    option1 := variant.selectedOptions.getD 0 ""
    option2 := variant.selectedOptions.getD 1 ""
    option3 := variant.selectedOptions.getD 2 ""
    inventoryLocation := level.locationName
    quantityAvailable := Cell.num (match level.quantities.head? with
      | some q => q.quantity
      | none => 0) }

/-- The placeholder row emitted for a variant with no inventory levels in an
unfiltered export. -/
def placeholderRow (productTitle : String) (variant : ExportVariant) : ExportRow :=
  { productTitle := productTitle
    sku := variant.sku.getD ""
    option1 := variant.selectedOptions.getD 0 ""
    option2 := variant.selectedOptions.getD 1 ""
    option3 := variant.selectedOptions.getD 2 ""
    inventoryLocation := "N/A"
    quantityAvailable := Cell.num 0 }

/-- Rows emitted for one variant.  `locationFilter` is `some id` when a
specific location is selected and `none` for an unset or all-locations
filter (src/unnamed/part_004 normalizes the literal ALL_LOCATIONS value to
the unset case). -/
def variantRows (locationFilter : Option String) (productTitle : String)
    (variant : ExportVariant) : List ExportRow :=
  let filteredInventory : List ExportLevel :=
    match locationFilter with
    | some lid => variant.inventoryLevels.filter (fun edge => edge.locationId == lid)
    | none => variant.inventoryLevels
  if filteredInventory.isEmpty then
    match locationFilter with
    | none => [placeholderRow productTitle variant]
    | some _ => []
  else
    filteredInventory.map (levelRow productTitle variant)

/-- The whole flatten: every variant of every product, in order. -/
def flattenProducts (locationFilter : Option String) (products : List ExportProduct) : List ExportRow :=
  products.flatMap (fun p => p.variants.flatMap (variantRows locationFilter p.title))

/-- The sentinel row added when the flatten produced nothing at all. -/
def sentinelRow : ExportRow :=
  { productTitle := "No data found", sku := "", option1 := "", option2 := "", option3 := ""
    inventoryLocation := "", quantityAvailable := Cell.str "" }

/-- The rows of the export response: the flatten, or the sentinel if empty. -/
def exportRows (locationFilter : Option String) (products : List ExportProduct) : List ExportRow :=
  let rows := flattenProducts locationFilter products
  if rows.isEmpty then [sentinelRow] else rows

/-! ## Per-row outcome classification

The stages of the row pipeline up to and including the level check depend
only on the environment and on the duplicate-key set, not on the stock or
the accumulated results.  `stepPre` computes that state-independent part of
a row's fate; `applyOutcome` replays an outcome against a full engine
state.  Their composition is proven equal to `processRow`. -/

/-- State-independent classification of one row. -/
inductive PreOutcome where
  | dropped
  | failedPre (errorMsg reason : String)
  | failedPost (sku combinationKey errorMsg reason : String)
  | compare (sku combinationKey inventoryItemId targetLocationId : String) (desired : Int)
deriving DecidableEq

/-- Classify a row given the duplicate keys recorded so far.  `failedPre`
is a failure before the variant lookup (no key recorded, no call made);
`failedPost` is a failure after the key was recorded and the lookup call
was made; `compare` reaches the current-versus-desired comparison. -/
def stepPre (env : Env) (processed : List String) (row : ImportRow) : PreOutcome :=
  match row.sku with
  | none => .dropped
  | some sku =>
    if sku == "" || sku == "SKU" then .dropped
    else
      match rowQuantity row with
      | none =>
        .failedPre ("Skipped SKU " ++ sku ++ ": Invalid or missing quantity value")
          "Invalid or missing quantity value"
      | some quantity =>
        match resolveLocation env sku (sheetLocationOf row) with
        | .failures errorMsg reason => .failedPre errorMsg reason
        | .resolved targetLocationId targetLocationName =>
          let combinationKey := sku ++ "|" ++ targetLocationName
          if processed.contains combinationKey then
            .failedPre ("Skipped SKU " ++ sku ++ ": You have identical row having same SKU and location")
              "You have identical row having same SKU and location"
          else
            match env.catalog sku with
            | none => .failedPost sku combinationKey ("Variant not found for SKU: " ++ sku) "Variant not found"
            | some vd =>
              match vd.levelLocations.find? (fun loc => loc == targetLocationId) with
              | some _ => .compare sku combinationKey vd.inventoryItemId targetLocationId quantity
              | none =>
                .failedPost sku combinationKey
                  ("Skipped SKU " ++ sku ++ ": SKU don\x27t have this location")
                  "SKU don\x27t have this location"

/-- The duplicate-key set after one row. -/
def nextProcessed (env : Env) (processed : List String) (row : ImportRow) : List String :=
  match stepPre env processed row with
  | .failedPost _ combinationKey _ _ => processed ++ [combinationKey]
  | .compare _ combinationKey _ _ _ => processed ++ [combinationKey]
  | _ => processed

/-- Replay a classified outcome against a full engine state. -/
def applyOutcome (env : Env) (st : EngineState) (row : ImportRow) : PreOutcome → EngineState
  | .dropped => st
  | .failedPre errorMsg reason => failRow st row errorMsg reason
  | .failedPost sku combinationKey errorMsg reason =>
    failRow { st with processedCombinations := st.processedCombinations ++ [combinationKey]
                      calls := st.calls ++ [Call.variantLookup sku] } row errorMsg reason
  | .compare sku combinationKey item loc quantity =>
    let st1 : EngineState :=
      { st with processedCombinations := st.processedCombinations ++ [combinationKey]
                calls := st.calls ++ [Call.variantLookup sku] }
    if st.stock item loc == quantity then skipRow st1 row "Quantity already matches"
    else
      let st2 : EngineState := { st1 with calls := st1.calls ++ [Call.inventorySet item loc quantity] }
      match env.mutErrors item loc quantity with
      | [] =>
        { st2 with results := { st2.results with updated := st2.results.updated + 1 }
                   stock := setStock st2.stock item loc quantity }
      | errorMsg :: _ => failRow st2 row ("Error updating SKU " ++ sku ++ ": " ++ errorMsg) errorMsg

theorem currentQtyAt_view_aux (stock : Stock) (item tid : String) (locs : List String) :
    currentQtyAt (viewVariant stock ⟨item, locs⟩) tid =
      match locs.find? (fun loc => loc == tid) with
      | some _ => some (stock item tid)
      | none => none := by
  induction locs with
  | nil => rfl
  | cons loc rest ih =>
    simp only [viewVariant, List.map_cons, currentQtyAt, List.find?_cons] at *
    cases hl : (loc == tid) with
    | true =>
      have : loc = tid := by exact eq_of_beq hl
      subst this
      simp [List.find?]
    | false =>
      simp only [hl]
      exact ih

/-- The levels view of a catalog variant finds the target location exactly
when the catalog lists a level there, and then reads the current stock. -/
theorem currentQtyAt_viewVariant (stock : Stock) (vd : VariantDef) (tid : String) :
    currentQtyAt (viewVariant stock vd) tid =
      match vd.levelLocations.find? (fun loc => loc == tid) with
      | some _ => some (stock vd.inventoryItemId tid)
      | none => none := by
  cases vd with
  | mk item locs => exact currentQtyAt_view_aux stock item tid locs

/-- Processing one row is replaying its classified outcome. -/
theorem processRow_char (env : Env) (st : EngineState) (row : ImportRow) :
    processRow env st row = applyOutcome env st row (stepPre env st.processedCombinations row) := by
  unfold processRow stepPre
  cases hsku : row.sku with
  | none => rfl
  | some sku =>
    by_cases hdrop : (sku == "" || sku == "SKU") = true
    · simp [hdrop, applyOutcome]
    · simp only [hdrop, Bool.false_eq_true, if_false]
      cases hq : rowQuantity row with
      | none => simp [applyOutcome]
      | some quantity =>
        cases hres : resolveLocation env sku (sheetLocationOf row) with
        | failures m r => simp [applyOutcome]
        | resolved tid tname =>
          cases hdup : st.processedCombinations.contains (sku ++ "|" ++ tname) with
          | true =>
            have hmem : (sku ++ "|" ++ tname) ∈ st.processedCombinations := by simpa using hdup
            simp [hdup, hmem, applyOutcome]
          | false =>
            simp only [hdup, Bool.false_eq_true, if_false]
            cases hc : env.catalog sku with
            | none => simp [findVariantBySku, hc, applyOutcome]
            | some vd =>
              simp only [findVariantBySku, hc, Option.map_some']
              rw [currentQtyAt_viewVariant]
              cases hf : vd.levelLocations.find? (fun loc => loc == tid) with
              | none => simp [applyOutcome]
              | some l =>
                simp only [applyOutcome, viewVariant]

/-- The stock pair read and possibly written by an outcome. -/
def comparePair : PreOutcome → Option (String × String)
  | .compare _ _ item loc _ => some (item, loc)
  | _ => none

/-- The (inventory item, location) pairs of the comparison-stage rows of a
row sequence, threading the duplicate-key set. -/
def tracePairs (env : Env) : List String → List ImportRow → List (String × String)
  | _, [] => []
  | P, r :: rs =>
    match comparePair (stepPre env P r) with
    | some pr => pr :: tracePairs env (nextProcessed env P r) rs
    | none => tracePairs env (nextProcessed env P r) rs

/-- Pairwise distinctness of the stock pairs touched along a row sequence:
each comparison-stage row touches a pair that no later row touches. -/
def distinctTrace (env : Env) : List String → List ImportRow → Prop
  | _, [] => True
  | P, r :: rs =>
    (∀ pr, comparePair (stepPre env P r) = some pr →
        pr ∉ tracePairs env (nextProcessed env P r) rs) ∧
    distinctTrace env (nextProcessed env P r) rs

/-- Processing one row updates the duplicate-key set to `nextProcessed`. -/
theorem processRow_processed (env : Env) (st : EngineState) (row : ImportRow) :
    (processRow env st row).processedCombinations
      = nextProcessed env st.processedCombinations row := by
  rw [processRow_char]
  unfold nextProcessed
  cases h : stepPre env st.processedCombinations row with
  | dropped => rfl
  | failedPre m r => rfl
  | failedPost sku K m r => rfl
  | compare sku K item loc q =>
    simp only [applyOutcome]
    split
    · rfl
    · cases env.mutErrors item loc q with
      | nil => rfl
      | cons m ms => rfl

/-- Writing a stock pair then reading it back gives the written quantity. -/
theorem setStock_same (stock : Stock) (item loc : String) (q : Int) :
    setStock stock item loc q item loc = q := by
  simp [setStock]

/-- Writing one stock pair leaves every other pair unchanged. -/
theorem setStock_other (stock : Stock) (item loc item2 loc2 : String) (q : Int)
    (h : (item2, loc2) ≠ (item, loc)) :
    setStock stock item loc q item2 loc2 = stock item2 loc2 := by
  unfold setStock
  cases hb : (item2 == item && loc2 == loc) with
  | false => rfl
  | true =>
    exfalso
    rw [Bool.and_eq_true] at hb
    exact h (by rw [eq_of_beq hb.1, eq_of_beq hb.2])

/-- A row whose outcome does not compare at a given pair leaves that stock
pair unchanged. -/
theorem processRow_stock_untouched (env : Env) (st : EngineState) (row : ImportRow)
    (item loc : String)
    (h : comparePair (stepPre env st.processedCombinations row) ≠ some (item, loc)) :
    (processRow env st row).stock item loc = st.stock item loc := by
  rw [processRow_char]
  cases ho : stepPre env st.processedCombinations row with
  | dropped => rfl
  | failedPre m r => rfl
  | failedPost sku K m r => rfl
  | compare sku K item1 loc1 q =>
    rw [ho] at h
    have hne : (item, loc) ≠ (item1, loc1) := by
      intro hcontra
      exact h (by rw [hcontra, comparePair])
    simp only [applyOutcome]
    split
    · rfl
    · cases env.mutErrors item1 loc1 q with
      | nil => exact setStock_other st.stock item1 loc1 item loc q hne
      | cons m ms => rfl

/-- Folding over rows whose trace never touches a pair leaves that stock
pair unchanged. -/
theorem foldl_stock_untouched (env : Env) (rows : List ImportRow) :
    ∀ (st : EngineState) (item loc : String),
      (item, loc) ∉ tracePairs env st.processedCombinations rows →
      (rows.foldl (processRow env) st).stock item loc = st.stock item loc := by
  induction rows with
  | nil => intro st item loc _; rfl
  | cons r rs ih =>
    intro st item loc hnt
    rw [List.foldl_cons]
    rw [tracePairs] at hnt
    cases hcp : comparePair (stepPre env st.processedCombinations r) with
    | none =>
      rw [hcp] at hnt
      have hstep := processRow_stock_untouched env st r item loc (by rw [hcp]; exact fun hc => Option.noConfusion hc)
      have htail := ih (processRow env st r) item loc
        (by rw [processRow_processed]; exact hnt)
      rw [htail, hstep]
    | some pr =>
      rw [hcp] at hnt
      simp only [List.mem_cons, not_or] at hnt
      have hstep := processRow_stock_untouched env st r item loc
        (by rw [hcp]; intro hc; exact hnt.1 (by injection hc with h; exact h.symm))
      have htail := ih (processRow env st r) item loc
        (by rw [processRow_processed]; exact hnt.2)
      rw [htail, hstep]

theorem applyOutcome_failedPost_eq (env : Env) (res : Results) (P : List String)
    (calls : List Call) (w : Stock) (row : ImportRow) (sku K m r : String) :
    applyOutcome env ⟨res, P, calls, w⟩ row (.failedPost sku K m r)
      = failRow ⟨res, P ++ [K], calls ++ [Call.variantLookup sku], w⟩ row m r := rfl

theorem applyOutcome_compare_eq (env : Env) (res : Results) (P : List String)
    (calls : List Call) (w : Stock) (row : ImportRow) (sku K item loc : String) (q : Int) :
    applyOutcome env ⟨res, P, calls, w⟩ row (.compare sku K item loc q)
      = if w item loc == q then
          skipRow ⟨res, P ++ [K], calls ++ [Call.variantLookup sku], w⟩ row "Quantity already matches"
        else
          match env.mutErrors item loc q with
          | [] =>
            ⟨{ res with updated := res.updated + 1 }, P ++ [K],
              (calls ++ [Call.variantLookup sku]) ++ [Call.inventorySet item loc q],
              setStock w item loc q⟩
          | errorMsg :: _ =>
            failRow ⟨res, P ++ [K], (calls ++ [Call.variantLookup sku]) ++ [Call.inventorySet item loc q], w⟩
              row ("Error updating SKU " ++ sku ++ ": " ++ errorMsg) errorMsg := rfl

/-- Running the same rows twice, where the second run starts from the stock
left by the first, with a trace that touches each stock pair at most once:
the second run updates nothing, appends exactly the same failed rows, and
skips once for every first-run skip or update. -/
theorem tworun_aux (env : Env) (rows : List ImportRow) :
    ∀ (P : List String) (res1 res2 : Results) (calls1 calls2 : List Call) (w0 : Stock)
      (st1f st2f : EngineState),
      distinctTrace env P rows →
      st1f = rows.foldl (processRow env) ⟨res1, P, calls1, w0⟩ →
      st2f = rows.foldl (processRow env) ⟨res2, P, calls2, st1f.stock⟩ →
      st2f.results.updated = res2.updated ∧
      (∃ F, st1f.results.failedRows = res1.failedRows ++ F ∧
            st2f.results.failedRows = res2.failedRows ++ F) ∧
      (∃ n, st1f.results.skippedRows.length + st1f.results.updated
              = res1.skippedRows.length + res1.updated + n ∧
            st2f.results.skippedRows.length = res2.skippedRows.length + n) := by
  induction rows with
  | nil =>
    intro P res1 res2 calls1 calls2 w0 st1f st2f _ h1 h2
    subst h1; subst h2
    exact ⟨rfl, ⟨[], by simp, by simp⟩, ⟨0, by simp, by simp⟩⟩
  | cons r rs ih =>
    intro P res1 res2 calls1 calls2 w0 st1f st2f hd h1 h2
    rw [distinctTrace] at hd
    obtain ⟨hdHead, hdTail⟩ := hd
    rw [List.foldl_cons] at h1 h2
    have e1 : processRow env ⟨res1, P, calls1, w0⟩ r
        = applyOutcome env ⟨res1, P, calls1, w0⟩ r (stepPre env P r) :=
      processRow_char env _ r
    have e2 : processRow env ⟨res2, P, calls2, st1f.stock⟩ r
        = applyOutcome env ⟨res2, P, calls2, st1f.stock⟩ r (stepPre env P r) :=
      processRow_char env _ r
    cases ho : stepPre env P r with
    | dropped =>
      rw [ho] at e1 e2
      have hnp : nextProcessed env P r = P := by simp [nextProcessed, ho]
      rw [hnp] at hdTail
      rw [e1] at h1
      rw [e2] at h2
      exact ih P res1 res2 calls1 calls2 w0 st1f st2f hdTail h1 h2
    | failedPre m rr =>
      rw [ho] at e1 e2
      have hnp : nextProcessed env P r = P := by simp [nextProcessed, ho]
      rw [hnp] at hdTail
      rw [e1] at h1
      rw [e2] at h2
      obtain ⟨hu, ⟨F, hf1, hf2⟩, ⟨n, hs1, hs2⟩⟩ :=
        ih P { res1 with errors := res1.errors ++ [m], failedRows := res1.failedRows ++ [(r, rr)] }
          { res2 with errors := res2.errors ++ [m], failedRows := res2.failedRows ++ [(r, rr)] }
          calls1 calls2 w0 st1f st2f hdTail h1 h2
      refine ⟨hu, ⟨(r, rr) :: F, ?_, ?_⟩, ⟨n, hs1, hs2⟩⟩
      · rw [hf1]; simp
      · rw [hf2]; simp
    | failedPost sku K m rr =>
      rw [ho] at e1 e2
      have hnp : nextProcessed env P r = P ++ [K] := by simp [nextProcessed, ho]
      rw [hnp] at hdTail
      rw [e1, applyOutcome_failedPost_eq] at h1
      rw [e2, applyOutcome_failedPost_eq] at h2
      obtain ⟨hu, ⟨F, hf1, hf2⟩, ⟨n, hs1, hs2⟩⟩ :=
        ih (P ++ [K])
          { res1 with errors := res1.errors ++ [m], failedRows := res1.failedRows ++ [(r, rr)] }
          { res2 with errors := res2.errors ++ [m], failedRows := res2.failedRows ++ [(r, rr)] }
          (calls1 ++ [Call.variantLookup sku]) (calls2 ++ [Call.variantLookup sku])
          w0 st1f st2f hdTail h1 h2
      refine ⟨hu, ⟨(r, rr) :: F, ?_, ?_⟩, ⟨n, hs1, hs2⟩⟩
      · rw [hf1]; simp
      · rw [hf2]; simp
    | compare sku K item loc q =>
      rw [ho] at e1 e2
      have hnp : nextProcessed env P r = P ++ [K] := by simp [nextProcessed, ho]
      rw [hnp] at hdTail
      have hpair : (item, loc) ∉ tracePairs env (P ++ [K]) rs := by
        have := hdHead (item, loc) (by rw [ho]; rfl)
        rwa [hnp] at this
      rw [e1, applyOutcome_compare_eq] at h1
      rw [e2, applyOutcome_compare_eq] at h2
      cases hv : (w0 item loc == q) with
      | true =>
        simp only [hv, if_true] at h1
        have hw : st1f.stock item loc = w0 item loc := by
          rw [h1]
          exact foldl_stock_untouched env rs _ item loc hpair
        have hv2 : (st1f.stock item loc == q) = true := by rw [hw]; exact hv
        simp only [hv2, if_true] at h2
        obtain ⟨hu, ⟨F, hf1, hf2⟩, ⟨n, hs1, hs2⟩⟩ :=
          ih (P ++ [K])
            { res1 with skippedRows := res1.skippedRows ++ [(r, "Quantity already matches")] }
            { res2 with skippedRows := res2.skippedRows ++ [(r, "Quantity already matches")] }
            (calls1 ++ [Call.variantLookup sku]) (calls2 ++ [Call.variantLookup sku])
            w0 st1f st2f hdTail h1 h2
        refine ⟨hu, ⟨F, hf1, hf2⟩, ⟨n + 1, ?_, ?_⟩⟩
        · dsimp only at hs1
          simp only [List.length_append, List.length_cons, List.length_nil] at hs1
          omega
        · dsimp only at hs2
          simp only [List.length_append, List.length_cons, List.length_nil] at hs2
          omega
      | false =>
        simp only [hv, Bool.false_eq_true, if_false] at h1
        cases hm : env.mutErrors item loc q with
        | nil =>
          simp only [hm] at h1
          have hw : st1f.stock item loc = q := by
            rw [h1]
            have := foldl_stock_untouched env rs
              (⟨{ res1 with updated := res1.updated + 1 }, P ++ [K],
                (calls1 ++ [Call.variantLookup sku]) ++ [Call.inventorySet item loc q],
                setStock w0 item loc q⟩ : EngineState) item loc hpair
            rw [this]
            exact setStock_same w0 item loc q
          have hv2 : (st1f.stock item loc == q) = true := by
            rw [hw]; exact beq_self_eq_true q
          simp only [hv2, if_true] at h2
          obtain ⟨hu, ⟨F, hf1, hf2⟩, ⟨n, hs1, hs2⟩⟩ :=
            ih (P ++ [K])
              { res1 with updated := res1.updated + 1 }
              { res2 with skippedRows := res2.skippedRows ++ [(r, "Quantity already matches")] }
              ((calls1 ++ [Call.variantLookup sku]) ++ [Call.inventorySet item loc q])
              (calls2 ++ [Call.variantLookup sku])
              (setStock w0 item loc q) st1f st2f hdTail h1 h2
          refine ⟨hu, ⟨F, hf1, hf2⟩, ⟨n + 1, ?_, ?_⟩⟩
          · dsimp only at hs1
            omega
          · dsimp only at hs2
            simp only [List.length_append, List.length_cons, List.length_nil] at hs2
            omega
        | cons m ms =>
          simp only [hm] at h1
          have hw : st1f.stock item loc = w0 item loc := by
            rw [h1]
            exact foldl_stock_untouched env rs _ item loc hpair
          have hv2 : (st1f.stock item loc == q) = false := by rw [hw]; exact hv
          simp only [hv2, Bool.false_eq_true, if_false, hm] at h2
          obtain ⟨hu, ⟨F, hf1, hf2⟩, ⟨n, hs1, hs2⟩⟩ :=
            ih (P ++ [K])
              { res1 with errors := res1.errors ++ ["Error updating SKU " ++ sku ++ ": " ++ m],
                          failedRows := res1.failedRows ++ [(r, m)] }
              { res2 with errors := res2.errors ++ ["Error updating SKU " ++ sku ++ ": " ++ m],
                          failedRows := res2.failedRows ++ [(r, m)] }
              ((calls1 ++ [Call.variantLookup sku]) ++ [Call.inventorySet item loc q])
              ((calls2 ++ [Call.variantLookup sku]) ++ [Call.inventorySet item loc q])
              w0 st1f st2f hdTail h1 h2
          refine ⟨hu, ⟨(r, m) :: F, ?_, ?_⟩, ⟨n, hs1, hs2⟩⟩
          · rw [hf1]; simp
          · rw [hf2]; simp

/-- Inversion of a comparison-stage classification: the catalog resolved the
SKU to the compared inventory item, location resolution produced the
compared location, and the duplicate key was fresh. -/
theorem stepPre_compare_inv (env : Env) (P : List String) (row : ImportRow)
    (sku K item loc : String) (q : Int)
    (h : stepPre env P row = .compare sku K item loc q) :
    ∃ vd tname, env.catalog sku = some vd ∧ vd.inventoryItemId = item ∧
      resolveLocation env sku (sheetLocationOf row) = .resolved loc tname ∧
      K = sku ++ "|" ++ tname ∧ P.contains K = false := by
  unfold stepPre at h
  split at h
  · exact absurd h (by simp)
  split at h
  · exact absurd h (by simp)
  split at h
  · exact absurd h (by simp)
  split at h
  · exact absurd h (by simp)
  rename_i tid tname hres
  dsimp only at h
  split at h
  · exact absurd h (by simp)
  rename_i hdup
  split at h
  · exact absurd h (by simp)
  rename_i vd hcat
  split at h
  · rename_i l0 hfind
    simp only [PreOutcome.compare.injEq] at h
    obtain ⟨rfl, rfl, rfl, rfl, rfl⟩ := h
    exact ⟨vd, tname, hcat, rfl, hres, rfl, by simpa using hdup⟩
  · exact absurd h (by simp)

/-- Inversion of successful location resolution: in All Locations mode the
target is a directory entry; in single-location mode it is the selected
location. -/
theorem resolveLocation_resolved_inv (env : Env) (sku sheet tid tname : String)
    (h : resolveLocation env sku sheet = .resolved tid tname) :
    (env.locationId = "ALL_LOCATIONS" ∧
      ∃ e, e ∈ env.allLocations ∧ e.id = tid ∧ e.name = tname) ∨
    (env.locationId ≠ "ALL_LOCATIONS" ∧ tid = env.locationId ∧ tname = env.selectedLocationName) := by
  unfold resolveLocation at h
  split at h
  · rename_i hmode
    split at h
    · exact absurd h (by simp)
    · split at h
      · rename_i fl hfind
        simp only [ResolveResult.resolved.injEq] at h
        exact Or.inl ⟨by simpa using hmode, fl, List.mem_of_find?_eq_some hfind, h.1, h.2⟩
      · exact absurd h (by simp)
  · rename_i hmode
    split at h
    · exact absurd h (by simp)
    · simp only [ResolveResult.resolved.injEq] at h
      exact Or.inr ⟨by simpa using hmode, h.1.symm, h.2.symm⟩

/-- Two comparison-stage rows touching the same stock pair carry the same
duplicate key, provided distinct SKUs resolve to distinct inventory items
and directory location names are consistent per id. -/
theorem compare_key_unique (env : Env)
    (H1 : ∀ s1 s2 vd1 vd2, env.catalog s1 = some vd1 → env.catalog s2 = some vd2 →
        vd1.inventoryItemId = vd2.inventoryItemId → s1 = s2)
    (H2 : ∀ e1, e1 ∈ env.allLocations → ∀ e2, e2 ∈ env.allLocations → e1.id = e2.id → e1.name = e2.name)
    {P1 P2 : List String} {r1 r2 : ImportRow} {s1 K1 s2 K2 item loc : String} {q1 q2 : Int}
    (h1 : stepPre env P1 r1 = .compare s1 K1 item loc q1)
    (h2 : stepPre env P2 r2 = .compare s2 K2 item loc q2) :
    K1 = K2 := by
  obtain ⟨vd1, t1, hc1, hi1, hr1, hk1, _⟩ := stepPre_compare_inv env P1 r1 s1 K1 item loc q1 h1
  obtain ⟨vd2, t2, hc2, hi2, hr2, hk2, _⟩ := stepPre_compare_inv env P2 r2 s2 K2 item loc q2 h2
  have hs : s1 = s2 := H1 s1 s2 vd1 vd2 hc1 hc2 (hi1.trans hi2.symm)
  subst hs
  have ht : t1 = t2 := by
    rcases resolveLocation_resolved_inv env s1 _ loc t1 hr1 with
      ⟨hm1, e1, he1, hid1, hn1⟩ | ⟨hm1, hid1, hn1⟩
    · rcases resolveLocation_resolved_inv env s1 _ loc t2 hr2 with
        ⟨hm2, e2, he2, hid2, hn2⟩ | ⟨hm2, hid2, hn2⟩
      · rw [← hn1, ← hn2]
        exact H2 e1 he1 e2 he2 (hid1.trans hid2.symm)
      · exact absurd hm1 hm2
    · rcases resolveLocation_resolved_inv env s1 _ loc t2 hr2 with
        ⟨hm2, e2, he2, hid2, hn2⟩ | ⟨hm2, hid2, hn2⟩
      · exact absurd hm2 hm1
      · rw [hn1, hn2]
  rw [hk1, hk2, ht]

/-- Keys already recorded stay recorded after a row. -/
theorem mem_nextProcessed_of_mem (env : Env) (P : List String) (row : ImportRow)
    (K : String) (h : K ∈ P) : K ∈ nextProcessed env P row := by
  unfold nextProcessed
  split
  · exact List.mem_append_left _ h
  · exact List.mem_append_left _ h
  · exact h

/-- A comparison-stage row records its key. -/
theorem compare_key_mem_next (env : Env) (P : List String) (row : ImportRow)
    (sku K item loc : String) (q : Int)
    (h : stepPre env P row = .compare sku K item loc q) :
    K ∈ nextProcessed env P row := by
  unfold nextProcessed
  rw [h]
  exact List.mem_append_right _ (by simp)

/-- Inversion of `comparePair`. -/
theorem comparePair_eq_some (o : PreOutcome) (pi pl : String)
    (h : comparePair o = some (pi, pl)) :
    ∃ s K q, o = .compare s K pi pl q := by
  cases o with
  | dropped => simp [comparePair] at h
  | failedPre m r => simp [comparePair] at h
  | failedPost s K m r => simp [comparePair] at h
  | compare s K item loc q =>
    simp only [comparePair, Option.some.injEq, Prod.mk.injEq] at h
    exact ⟨s, K, q, by rw [h.1, h.2]⟩

/-- Once a comparison key is recorded, its stock pair never reappears in the
trace of the remaining rows. -/
theorem pair_not_in_trace (env : Env)
    (H1 : ∀ s1 s2 vd1 vd2, env.catalog s1 = some vd1 → env.catalog s2 = some vd2 →
        vd1.inventoryItemId = vd2.inventoryItemId → s1 = s2)
    (H2 : ∀ e1, e1 ∈ env.allLocations → ∀ e2, e2 ∈ env.allLocations → e1.id = e2.id → e1.name = e2.name)
    {P0 : List String} {r0 : ImportRow} {s0 K item loc : String} {q0 : Int}
    (h0 : stepPre env P0 r0 = .compare s0 K item loc q0) :
    ∀ (rs : List ImportRow) (P : List String), K ∈ P →
      (item, loc) ∉ tracePairs env P rs := by
  intro rs
  induction rs with
  | nil => intro P _; rw [tracePairs]; exact List.not_mem_nil _
  | cons r rs ih =>
    intro P hK
    rw [tracePairs]
    cases hcp : comparePair (stepPre env P r) with
    | none =>
      exact ih (nextProcessed env P r) (mem_nextProcessed_of_mem env P r K hK)
    | some pr =>
      intro hmem
      rcases List.mem_cons.mp hmem with heq | hmem2
      · obtain ⟨pi, pl⟩ := pr
        obtain ⟨hpi, hpl⟩ := Prod.mk.injEq .. ▸ heq
        subst hpi; subst hpl
        obtain ⟨s1, K1, q1, hstep⟩ := comparePair_eq_some _ item loc hcp
        have hKK : K = K1 := compare_key_unique env H1 H2 h0 hstep
        obtain ⟨_, _, _, _, _, _, hfresh⟩ := stepPre_compare_inv env P r s1 K1 item loc q1 hstep
        rw [← hKK] at hfresh
        have hKtrue : P.contains K = true := by simpa using hK
        rw [hfresh] at hKtrue
        exact Bool.noConfusion hKtrue
      · exact ih (nextProcessed env P r) (mem_nextProcessed_of_mem env P r K hK) hmem2

/-- Under SKU-to-item injectivity and per-id name consistency, every trace
is pairwise distinct. -/
theorem distinctTrace_of_inj (env : Env)
    (H1 : ∀ s1 s2 vd1 vd2, env.catalog s1 = some vd1 → env.catalog s2 = some vd2 →
        vd1.inventoryItemId = vd2.inventoryItemId → s1 = s2)
    (H2 : ∀ e1, e1 ∈ env.allLocations → ∀ e2, e2 ∈ env.allLocations → e1.id = e2.id → e1.name = e2.name) :
    ∀ (rows : List ImportRow) (P : List String), distinctTrace env P rows := by
  intro rows
  induction rows with
  | nil => intro P; rw [distinctTrace]; trivial
  | cons r rs ih =>
    intro P
    rw [distinctTrace]
    refine ⟨?_, ih (nextProcessed env P r)⟩
    rintro ⟨pi, pl⟩ hcp
    obtain ⟨s1, K1, q1, hstep⟩ := comparePair_eq_some _ pi pl hcp
    exact pair_not_in_trace env H1 H2 hstep rs (nextProcessed env P r)
      (compare_key_mem_next env P r s1 K1 pi pl q1 hstep)

/-! ## Helper evaluation lemmas for the claim theorems -/

theorem stepPre_eval (env : Env) (P : List String) (row : ImportRow)
    (sku : String) (quantity : Int) (tid tname : String)
    (hsku : row.sku = some sku) (h1 : sku ≠ "") (h2 : sku ≠ "SKU")
    (hq : rowQuantity row = some quantity)
    (hres : resolveLocation env sku (sheetLocationOf row) = .resolved tid tname) :
    stepPre env P row =
      if P.contains (sku ++ "|" ++ tname) then
        .failedPre ("Skipped SKU " ++ sku ++ ": You have identical row having same SKU and location")
          "You have identical row having same SKU and location"
      else
        match env.catalog sku with
        | none => .failedPost sku (sku ++ "|" ++ tname) ("Variant not found for SKU: " ++ sku) "Variant not found"
        | some vd =>
          match vd.levelLocations.find? (fun l => l == tid) with
          | some _ => .compare sku (sku ++ "|" ++ tname) vd.inventoryItemId tid quantity
          | none =>
            .failedPost sku (sku ++ "|" ++ tname)
              ("Skipped SKU " ++ sku ++ ": SKU don\x27t have this location")
              "SKU don\x27t have this location" := by
  have hdrop : (sku == "" || sku == "SKU") = false := by
    simp only [Bool.or_eq_false_iff, beq_eq_false_iff_ne, ne_eq]
    exact ⟨h1, h2⟩
  simp only [stepPre, hsku, hdrop, Bool.false_eq_true, if_false, hq, hres]

/-- C1 helper: a row whose current quantity matches its desired quantity is
classified for comparison at that quantity. -/
theorem stepPre_eval_compare (env : Env) (P : List String) (row : ImportRow)
    (sku : String) (quantity : Int) (tid tname : String) (vd : VariantDef)
    (hsku : row.sku = some sku) (h1 : sku ≠ "") (h2 : sku ≠ "SKU")
    (hq : rowQuantity row = some quantity)
    (hres : resolveLocation env sku (sheetLocationOf row) = .resolved tid tname)
    (hdup : P.contains (sku ++ "|" ++ tname) = false)
    (hcat : env.catalog sku = some vd)
    (hfind : (vd.levelLocations.find? (fun l => l == tid)).isSome = true) :
    stepPre env P row = .compare sku (sku ++ "|" ++ tname) vd.inventoryItemId tid quantity := by
  rw [stepPre_eval env P row sku quantity tid tname hsku h1 h2 hq hres, hdup]
  simp only [Bool.false_eq_true, if_false, hcat]
  cases hf : vd.levelLocations.find? (fun l => l == tid) with
  | some l => rfl
  | none => rw [hf] at hfind; exact Bool.noConfusion hfind

/-- C1.  A row that passes filtering, quantity validation, location
resolution, duplicate detection, variant lookup and the level check, and
whose current available quantity at the target already equals the desired
quantity, is recorded exactly once in skippedRows with reason
"Quantity already matches"; no inventory-set call is issued for it and
updated is unchanged (only the variant-lookup call is added). -/
theorem quantity_match_skip (env : Env) (st : EngineState) (row : ImportRow)
    (sku : String) (quantity : Int) (tid tname : String) (vd : VariantDef)
    (hsku : row.sku = some sku) (h1 : sku ≠ "") (h2 : sku ≠ "SKU")
    (hq : rowQuantity row = some quantity)
    (hres : resolveLocation env sku (sheetLocationOf row) = .resolved tid tname)
    (hdup : st.processedCombinations.contains (sku ++ "|" ++ tname) = false)
    (hcat : env.catalog sku = some vd)
    (hcur : currentQtyAt (viewVariant st.stock vd) tid = some quantity) :
    (processRow env st row).results.skippedRows
        = st.results.skippedRows ++ [(row, "Quantity already matches")] ∧
    (processRow env st row).results.updated = st.results.updated ∧
    (processRow env st row).results.failedRows = st.results.failedRows ∧
    (processRow env st row).calls = st.calls ++ [Call.variantLookup sku] ∧
    (processRow env st row).stock = st.stock := by
  rw [currentQtyAt_viewVariant] at hcur
  cases hf : vd.levelLocations.find? (fun l => l == tid) with
  | none => rw [hf] at hcur; exact absurd hcur (by simp)
  | some l =>
    rw [hf] at hcur
    have hcurq : st.stock vd.inventoryItemId tid = quantity := by
      simpa using hcur
    have hstep := stepPre_eval_compare env st.processedCombinations row sku quantity tid tname vd
      hsku h1 h2 hq hres hdup hcat (by rw [hf]; rfl)
    have hv : (st.stock vd.inventoryItemId tid == quantity) = true := by
      rw [hcurq]; exact beq_self_eq_true quantity
    rw [processRow_char, hstep]
    simp [applyOutcome, hv, skipRow]

/-- C4.  A row that reaches the current-quantity lookup but whose variant
has no inventory level at the resolved target location fails with
"SKU don't have this location": one failedRows entry, no inventory-set
call, updated unchanged (missing location is a failure, not quantity 0). -/
theorem missing_location_fails (env : Env) (st : EngineState) (row : ImportRow)
    (sku : String) (quantity : Int) (tid tname : String) (vd : VariantDef)
    (hsku : row.sku = some sku) (h1 : sku ≠ "") (h2 : sku ≠ "SKU")
    (hq : rowQuantity row = some quantity)
    (hres : resolveLocation env sku (sheetLocationOf row) = .resolved tid tname)
    (hdup : st.processedCombinations.contains (sku ++ "|" ++ tname) = false)
    (hcat : env.catalog sku = some vd)
    (hcur : currentQtyAt (viewVariant st.stock vd) tid = none) :
    (processRow env st row).results.failedRows
        = st.results.failedRows ++ [(row, "SKU don\x27t have this location")] ∧
    (processRow env st row).results.errors
        = st.results.errors ++ ["Skipped SKU " ++ sku ++ ": SKU don\x27t have this location"] ∧
    (processRow env st row).results.updated = st.results.updated ∧
    (processRow env st row).results.skippedRows = st.results.skippedRows ∧
    (processRow env st row).calls = st.calls ++ [Call.variantLookup sku] ∧
    (processRow env st row).stock = st.stock := by
  rw [currentQtyAt_viewVariant] at hcur
  cases hf : vd.levelLocations.find? (fun l => l == tid) with
  | some l => rw [hf] at hcur; exact absurd hcur (by simp)
  | none =>
    have hstep : stepPre env st.processedCombinations row
        = .failedPost sku (sku ++ "|" ++ tname)
            ("Skipped SKU " ++ sku ++ ": SKU don\x27t have this location")
            "SKU don\x27t have this location" := by
      rw [stepPre_eval env st.processedCombinations row sku quantity tid tname hsku h1 h2 hq hres, hdup]
      simp only [Bool.false_eq_true, if_false, hcat, hf]
    rw [processRow_char, hstep]
    simp [applyOutcome, failRow]

/-! ## Concrete instances used by witnesses and counterexamples -/

/-- A single-location environment: selected location gid1 named Main, one
catalog variant A1 stocked at gid1, mutations always succeed. -/
def wEnv : Env :=
  { locationId := "gid1"
    selectedLocationName := "Main"
    allLocations := [{ id := "gid1", name := "Main" }]
    catalog := fun s =>
      if s == "A1" then some { inventoryItemId := "item1", levelLocations := ["gid1"] } else none
    mutErrors := fun _ _ _ => [] }

/-- Every pair currently stocked at 5. -/
def wStock : Stock := fun _ _ => 5

/-- Fresh engine state over `wStock`. -/
def wState : EngineState :=
  { results := { total := 1, updated := 0, errors := [], failedRows := [], skippedRows := [] }
    processedCombinations := []
    calls := []
    stock := wStock }

/-- A row asking for quantity 5 of A1 with a blank location cell. -/
def wRow : ImportRow :=
  { sku := some "A1", quantityAvailable := some "5", inventoryLocation := none }

/-- C1 witness at a concrete input. -/
theorem quantity_match_skip_witness :
    (processRow wEnv wState wRow).results.skippedRows
        = wState.results.skippedRows ++ [(wRow, "Quantity already matches")] ∧
    (processRow wEnv wState wRow).results.updated = wState.results.updated ∧
    (processRow wEnv wState wRow).results.failedRows = wState.results.failedRows ∧
    (processRow wEnv wState wRow).calls = wState.calls ++ [Call.variantLookup "A1"] ∧
    (processRow wEnv wState wRow).stock = wState.stock :=
  quantity_match_skip wEnv wState wRow "A1" 5 "gid1" "Main"
    { inventoryItemId := "item1", levelLocations := ["gid1"] }
    rfl (by decide) (by decide) rfl rfl rfl rfl rfl

/-- Like `wEnv` but the catalog variant is stocked only at gid2. -/
def w4Env : Env :=
  { locationId := "gid1"
    selectedLocationName := "Main"
    allLocations := [{ id := "gid1", name := "Main" }]
    catalog := fun s =>
      if s == "A1" then some { inventoryItemId := "item1", levelLocations := ["gid2"] } else none
    mutErrors := fun _ _ _ => [] }

/-- C4 witness at a concrete input. -/
theorem missing_location_fails_witness :
    (processRow w4Env wState wRow).results.failedRows
        = wState.results.failedRows ++ [(wRow, "SKU don\x27t have this location")] ∧
    (processRow w4Env wState wRow).results.errors
        = wState.results.errors ++ ["Skipped SKU " ++ "A1" ++ ": SKU don\x27t have this location"] ∧
    (processRow w4Env wState wRow).results.updated = wState.results.updated ∧
    (processRow w4Env wState wRow).results.skippedRows = wState.results.skippedRows ∧
    (processRow w4Env wState wRow).calls = wState.calls ++ [Call.variantLookup "A1"] ∧
    (processRow w4Env wState wRow).stock = wState.stock :=
  missing_location_fails w4Env wState wRow "A1" 5 "gid1" "Main"
    { inventoryItemId := "item1", levelLocations := ["gid2"] }
    rfl (by decide) (by decide) rfl rfl rfl rfl rfl

/-- C2 (amended).  Once a row passes filtering, quantity validation and
location resolution, its duplicate key is recorded (or already was); and any
row resolving to an already-recorded key is failed with the duplicate
reason, with no variant-lookup call, no inventory-set call, and no change
to updated, skippedRows or the stock. -/
theorem duplicate_second_row_fails (env : Env) (st : EngineState) (row : ImportRow)
    (sku : String) (quantity : Int) (tid tname : String)
    (hsku : row.sku = some sku) (h1 : sku ≠ "") (h2 : sku ≠ "SKU")
    (hq : rowQuantity row = some quantity)
    (hres : resolveLocation env sku (sheetLocationOf row) = .resolved tid tname) :
    (sku ++ "|" ++ tname) ∈ (processRow env st row).processedCombinations ∧
    (st.processedCombinations.contains (sku ++ "|" ++ tname) = true →
      (processRow env st row).results.failedRows
          = st.results.failedRows ++ [(row, "You have identical row having same SKU and location")] ∧
      (processRow env st row).calls = st.calls ∧
      (processRow env st row).results.updated = st.results.updated ∧
      (processRow env st row).results.skippedRows = st.results.skippedRows ∧
      (processRow env st row).stock = st.stock) := by
  constructor
  · rw [processRow_processed]
    unfold nextProcessed
    rw [stepPre_eval env st.processedCombinations row sku quantity tid tname hsku h1 h2 hq hres]
    cases hdup : st.processedCombinations.contains (sku ++ "|" ++ tname) with
    | true =>
      simp only [hdup, if_true]
      simpa using hdup
    | false =>
      simp only [hdup, Bool.false_eq_true, if_false]
      cases hc : env.catalog sku with
      | none => simp
      | some vd =>
        cases hf : vd.levelLocations.find? (fun l => l == tid) with
        | some l => simp [hf]
        | none => simp [hf]
  · intro hdup
    have hstep : stepPre env st.processedCombinations row
        = .failedPre ("Skipped SKU " ++ sku ++ ": You have identical row having same SKU and location")
            "You have identical row having same SKU and location" := by
      rw [stepPre_eval env st.processedCombinations row sku quantity tid tname hsku h1 h2 hq hres]
      simp only [hdup, if_true]
    rw [processRow_char, hstep]
    simp [applyOutcome, failRow]

/-- Engine state whose duplicate-key set already holds the A1 at Main key. -/
def w2State : EngineState :=
  { wState with processedCombinations := ["A1|Main"] }

/-- C2 witness at a concrete input: the key stays recorded and the row is
failed as a duplicate. -/
theorem duplicate_second_row_fails_witness :
    ("A1" ++ "|" ++ "Main") ∈ (processRow wEnv w2State wRow).processedCombinations ∧
    (processRow wEnv w2State wRow).results.failedRows
        = w2State.results.failedRows ++ [(wRow, "You have identical row having same SKU and location")] ∧
    (processRow wEnv w2State wRow).calls = w2State.calls ∧
    (processRow wEnv w2State wRow).results.updated = w2State.results.updated ∧
    (processRow wEnv w2State wRow).results.skippedRows = w2State.results.skippedRows ∧
    (processRow wEnv w2State wRow).stock = w2State.stock :=
  ⟨(duplicate_second_row_fails wEnv w2State wRow "A1" 5 "gid1" "Main"
      rfl (by decide) (by decide) rfl rfl).1,
   (duplicate_second_row_fails wEnv w2State wRow "A1" 5 "gid1" "Main"
      rfl (by decide) (by decide) rfl rfl).2 (by decide)⟩

/-- C2 counterexample to the claim as frozen: two rows with the same
(SKU, resolved-location-name); the first fails quantity validation, so the
second is not failed as a duplicate at all: it is processed through the
pipeline, triggers a variant lookup and an update. -/
theorem duplicate_claim_counterexample :
    (reconcile wEnv wStock
        [{ sku := some "A1", quantityAvailable := some "abc", inventoryLocation := none },
         { sku := some "A1", quantityAvailable := some "7", inventoryLocation := none }]).results.failedRows
      = [({ sku := some "A1", quantityAvailable := some "abc", inventoryLocation := none },
          "Invalid or missing quantity value")] ∧
    (reconcile wEnv wStock
        [{ sku := some "A1", quantityAvailable := some "abc", inventoryLocation := none },
         { sku := some "A1", quantityAvailable := some "7", inventoryLocation := none }]).results.updated = 1 ∧
    Call.variantLookup "A1" ∈ (reconcile wEnv wStock
        [{ sku := some "A1", quantityAvailable := some "abc", inventoryLocation := none },
         { sku := some "A1", quantityAvailable := some "7", inventoryLocation := none }]).calls := by
  refine ⟨?_, ?_, ?_⟩ <;> decide

/-- A header or blank-SKU row classifies as dropped. -/
theorem stepPre_dropped_of (env : Env) (P : List String) (row : ImportRow)
    (h : isDroppedRow row = true) : stepPre env P row = .dropped := by
  unfold isDroppedRow at h
  cases hsku : row.sku with
  | none => simp [stepPre, hsku]
  | some sku =>
    simp only [hsku] at h
    simp [stepPre, hsku, h]

/-- A row with a real SKU never classifies as dropped. -/
theorem stepPre_not_dropped (env : Env) (P : List String) (row : ImportRow) (sku : String)
    (hsku : row.sku = some sku) (h1 : sku ≠ "") (h2 : sku ≠ "SKU") :
    stepPre env P row ≠ .dropped := by
  intro h
  have hdrop : (sku == "" || sku == "SKU") = false := by
    simp only [Bool.or_eq_false_iff, beq_eq_false_iff_ne, ne_eq]
    exact ⟨h1, h2⟩
  simp only [stepPre, hsku, hdrop, Bool.false_eq_true, if_false] at h
  split at h
  · exact PreOutcome.noConfusion h
  split at h
  · exact PreOutcome.noConfusion h
  split at h
  · exact PreOutcome.noConfusion h
  split at h
  · exact PreOutcome.noConfusion h
  split at h
  · exact PreOutcome.noConfusion h
  · exact PreOutcome.noConfusion h

/-- The outcome tally of a state: updates plus failed plus skipped rows. -/
def outcomeCount (st : EngineState) : Nat :=
  st.results.updated + st.results.failedRows.length + st.results.skippedRows.length

/-- Each non-dropped row contributes exactly one outcome; dropped rows none. -/
theorem processRow_outcomeCount (env : Env) (st : EngineState) (row : ImportRow) :
    outcomeCount (processRow env st row)
      = outcomeCount st + (if isDroppedRow row then 0 else 1) := by
  rw [processRow_char]
  cases hd : isDroppedRow row with
  | true =>
    rw [stepPre_dropped_of env st.processedCombinations row hd]
    simp [applyOutcome]
  | false =>
    have hsku : ∃ sku, row.sku = some sku ∧ (sku == "" || sku == "SKU") = false := by
      unfold isDroppedRow at hd
      cases hs : row.sku with
      | none => rw [hs] at hd; exact Bool.noConfusion hd
      | some sku =>
        refine ⟨sku, rfl, ?_⟩
        simpa [hs] using hd
    obtain ⟨sku, hs, hdrop⟩ := hsku
    have hdrop' : sku ≠ "" ∧ sku ≠ "SKU" := by
      simpa [Bool.or_eq_false_iff, beq_eq_false_iff_ne] using hdrop
    cases ho : stepPre env st.processedCombinations row with
    | dropped =>
      exact absurd ho (stepPre_not_dropped env st.processedCombinations row sku hs hdrop'.1 hdrop'.2)
    | failedPre m r =>
      simp only [applyOutcome, failRow, outcomeCount, List.length_append, List.length_cons,
        List.length_nil, hd, Bool.false_eq_true, if_false]
      omega
    | failedPost sku' K m r =>
      simp only [applyOutcome, failRow, outcomeCount, List.length_append, List.length_cons,
        List.length_nil, hd, Bool.false_eq_true, if_false]
      omega
    | compare sku' K item loc q =>
      simp only [applyOutcome]
      split
      · simp only [skipRow, outcomeCount, List.length_append, List.length_cons,
          List.length_nil, hd, Bool.false_eq_true, if_false]
        omega
      · cases env.mutErrors item loc q with
        | nil =>
          simp only [outcomeCount, hd, Bool.false_eq_true, if_false]
          omega
        | cons m ms =>
          simp only [failRow, outcomeCount, List.length_append, List.length_cons,
            List.length_nil, hd, Bool.false_eq_true, if_false]
          omega

/-- Processing a row never changes the recorded total. -/
theorem processRow_total (env : Env) (st : EngineState) (row : ImportRow) :
    (processRow env st row).results.total = st.results.total := by
  rw [processRow_char]
  cases ho : stepPre env st.processedCombinations row with
  | dropped => rfl
  | failedPre m r => rfl
  | failedPost sku K m r => rfl
  | compare sku K item loc q =>
    simp only [applyOutcome]
    split
    · rfl
    · cases env.mutErrors item loc q with
      | nil => rfl
      | cons m ms => rfl

/-- Each row appends the same number of messages to errors as rows to
failedRows. -/
theorem processRow_errors_failed (env : Env) (st : EngineState) (row : ImportRow) :
    (processRow env st row).results.errors.length + st.results.failedRows.length
      = (processRow env st row).results.failedRows.length + st.results.errors.length := by
  rw [processRow_char]
  cases ho : stepPre env st.processedCombinations row with
  | dropped => simp only [applyOutcome]; omega
  | failedPre m r =>
    simp only [applyOutcome, failRow, List.length_append, List.length_cons, List.length_nil]
    omega
  | failedPost sku K m r =>
    simp only [applyOutcome, failRow, List.length_append, List.length_cons, List.length_nil]
    omega
  | compare sku K item loc q =>
    simp only [applyOutcome]
    split
    · simp only [skipRow]
      omega
    · cases env.mutErrors item loc q with
      | nil => dsimp only; omega
      | cons m ms =>
        simp only [failRow, List.length_append, List.length_cons, List.length_nil]
        omega

theorem filter_bool_partition {α : Type} (p : α → Bool) (l : List α) :
    (l.filter p).length + (l.filter (fun a => !(p a))).length = l.length := by
  induction l with
  | nil => rfl
  | cons a l ih =>
    cases h : p a
    · simp [List.filter_cons, h]
      omega
    · simp [List.filter_cons, h]
      omega

theorem foldl_outcomeCount (env : Env) (rows : List ImportRow) :
    ∀ st, outcomeCount (rows.foldl (processRow env) st)
      = outcomeCount st + (rows.filter (fun r => !(isDroppedRow r))).length := by
  induction rows with
  | nil => intro st; simp
  | cons r rs ih =>
    intro st
    rw [List.foldl_cons, ih, processRow_outcomeCount]
    cases hd : isDroppedRow r
    · simp [List.filter_cons, hd]
      omega
    · simp [List.filter_cons, hd]

theorem foldl_total (env : Env) (rows : List ImportRow) :
    ∀ st, (rows.foldl (processRow env) st).results.total = st.results.total := by
  induction rows with
  | nil => intro st; rfl
  | cons r rs ih =>
    intro st
    rw [List.foldl_cons, ih, processRow_total]

theorem foldl_errors_failed (env : Env) (rows : List ImportRow) :
    ∀ st, (rows.foldl (processRow env) st).results.errors.length + st.results.failedRows.length
      = (rows.foldl (processRow env) st).results.failedRows.length + st.results.errors.length := by
  induction rows with
  | nil => intro st; rw [List.foldl_nil]; omega
  | cons r rs ih =>
    intro st
    rw [List.foldl_cons]
    have h1 := ih (processRow env st r)
    have h2 := processRow_errors_failed env st r
    omega

/-- C3.  The outcome tally plus the silently dropped header and blank-SKU
rows equals the total; hence the tally is at most the total, with equality
exactly when no row was dropped. -/
theorem outcome_count_invariant (env : Env) (stock : Stock) (rows : List ImportRow) :
    (reconcile env stock rows).results.updated
        + (reconcile env stock rows).results.failedRows.length
        + (reconcile env stock rows).results.skippedRows.length
        + (rows.filter isDroppedRow).length
      = (reconcile env stock rows).results.total ∧
    (reconcile env stock rows).results.updated
        + (reconcile env stock rows).results.failedRows.length
        + (reconcile env stock rows).results.skippedRows.length
      ≤ (reconcile env stock rows).results.total ∧
    ((reconcile env stock rows).results.updated
        + (reconcile env stock rows).results.failedRows.length
        + (reconcile env stock rows).results.skippedRows.length
      = (reconcile env stock rows).results.total
      ↔ (rows.filter isDroppedRow).length = 0) := by
  have htot := foldl_total env rows
    ⟨{ total := rows.length, updated := 0, errors := [], failedRows := [], skippedRows := [] },
      [], [], stock⟩
  have hcount := foldl_outcomeCount env rows
    ⟨{ total := rows.length, updated := 0, errors := [], failedRows := [], skippedRows := [] },
      [], [], stock⟩
  have hpart := filter_bool_partition isDroppedRow rows
  unfold reconcile
  unfold outcomeCount at hcount
  dsimp only at htot hcount
  simp only [List.length_nil] at hcount
  constructor
  · omega
  constructor
  · omega
  · omega

/-- C10.  After any reconcile invocation the errors list and the failedRows
list have the same length: each failure appends exactly one of each. -/
theorem errors_match_failed_rows (env : Env) (stock : Stock) (rows : List ImportRow) :
    (reconcile env stock rows).results.errors.length
      = (reconcile env stock rows).results.failedRows.length := by
  have h := foldl_errors_failed env rows
    ⟨{ total := rows.length, updated := 0, errors := [], failedRows := [], skippedRows := [] },
      [], [], stock⟩
  unfold reconcile
  simpa using h

/-- C5.  Location matching is case-insensitive in both modes: in All
Locations mode a sheet name matching some directory entry up to letter case
resolves (to the first such entry), the not-found failure arises only when
no entry matches up to case; in single-location mode a non-blank sheet name
equal to the selected name up to letter case resolves to the selection. -/
theorem location_match_case_insensitive (env : Env) (sku sheet : String) :
    (env.locationId = "ALL_LOCATIONS" → sheet ≠ "" →
      (∃ e, e ∈ env.allLocations ∧ toLowerStr e.name = toLowerStr sheet) →
      ∃ fl, fl ∈ env.allLocations ∧ toLowerStr fl.name = toLowerStr sheet ∧
        resolveLocation env sku sheet = .resolved fl.id fl.name) ∧
    (env.locationId = "ALL_LOCATIONS" → sheet ≠ "" →
      (∀ e, e ∈ env.allLocations → toLowerStr e.name ≠ toLowerStr sheet) →
      resolveLocation env sku sheet
        = .failures ("Skipped SKU " ++ sku ++ ": Location \x27" ++ sheet ++ "\x27 not found in store")
            ("Location \x27" ++ sheet ++ "\x27 not found in store")) ∧
    (env.locationId ≠ "ALL_LOCATIONS" → sheet ≠ "" →
      toLowerStr sheet = toLowerStr env.selectedLocationName →
      resolveLocation env sku sheet = .resolved env.locationId env.selectedLocationName) := by
  refine ⟨?_, ?_, ?_⟩
  · intro hm hs hex
    obtain ⟨e, he, hname⟩ := hex
    have hmode : (env.locationId == "ALL_LOCATIONS") = true := by simp [hm]
    have hsheet : (sheet == "") = false := by simp [hs]
    cases hf : env.allLocations.find? (fun loc => toLowerStr loc.name == toLowerStr sheet) with
    | none =>
      exfalso
      have := List.find?_eq_none.mp hf e he
      exact this (by simp [hname])
    | some fl =>
      have hmem := List.mem_of_find?_eq_some hf
      have hp := List.find?_some hf
      refine ⟨fl, hmem, by simpa using hp, ?_⟩
      simp only [resolveLocation, hmode, if_true, hsheet, Bool.false_eq_true, if_false, hf]
  · intro hm hs hall
    have hmode : (env.locationId == "ALL_LOCATIONS") = true := by simp [hm]
    have hsheet : (sheet == "") = false := by simp [hs]
    have hf : env.allLocations.find? (fun loc => toLowerStr loc.name == toLowerStr sheet) = none := by
      apply List.find?_eq_none.mpr
      intro e he
      simpa using hall e he
    simp only [resolveLocation, hmode, if_true, hsheet, Bool.false_eq_true, if_false, hf]
  · intro hm hs heq
    have hmode : (env.locationId == "ALL_LOCATIONS") = false := by simp [hm]
    have hcond : (sheet != "" && toLowerStr sheet != toLowerStr env.selectedLocationName) = false := by
      simp [heq]
    simp only [resolveLocation, hmode, Bool.false_eq_true, if_false, hcond]

/-- An all-locations environment with one directory entry gid1 named Main. -/
def w5Env : Env :=
  { locationId := "ALL_LOCATIONS"
    selectedLocationName := ""
    allLocations := [{ id := "gid1", name := "Main" }]
    catalog := fun _ => none
    mutErrors := fun _ _ _ => [] }

/-- C5 witness at concrete inputs covering all three parts. -/
theorem location_match_case_insensitive_witness :
    (∃ fl, fl ∈ w5Env.allLocations ∧ toLowerStr fl.name = toLowerStr "MAIN" ∧
      resolveLocation w5Env "A1" "MAIN" = .resolved fl.id fl.name) ∧
    resolveLocation w5Env "A1" "Nowhere"
      = .failures ("Skipped SKU " ++ "A1" ++ ": Location \x27" ++ "Nowhere" ++ "\x27 not found in store")
          ("Location \x27" ++ "Nowhere" ++ "\x27 not found in store") ∧
    resolveLocation wEnv "A1" "mAiN" = .resolved wEnv.locationId wEnv.selectedLocationName :=
  ⟨(location_match_case_insensitive w5Env "A1" "MAIN").1 rfl (by decide)
      ⟨{ id := "gid1", name := "Main" }, by decide, by decide⟩,
   (location_match_case_insensitive w5Env "A1" "Nowhere").2.1 rfl (by decide) (by decide),
   (location_match_case_insensitive wEnv "A1" "mAiN").2.2 (by decide) (by decide) (by decide)⟩

/-- C7 (amended).  In All Locations mode a row whose SKU passes filtering
and whose quantity parses, but whose trimmed Inventory Location is empty,
is failed with reason "Inventory Location is required for All Locations
mode" and processing of that row stops: nothing else changes and no call
is made. -/
theorem blank_location_all_mode_fails (env : Env) (st : EngineState) (row : ImportRow)
    (sku : String) (quantity : Int)
    (hmode : env.locationId = "ALL_LOCATIONS")
    (hsku : row.sku = some sku) (h1 : sku ≠ "") (h2 : sku ≠ "SKU")
    (hq : rowQuantity row = some quantity)
    (hblank : sheetLocationOf row = "") :
    (processRow env st row).results.failedRows
        = st.results.failedRows ++ [(row, "Inventory Location is required for All Locations mode")] ∧
    (processRow env st row).results.errors
        = st.results.errors
          ++ ["Skipped SKU " ++ sku ++ ": Inventory Location is required when \"All Locations\" is selected"] ∧
    (processRow env st row).results.updated = st.results.updated ∧
    (processRow env st row).results.skippedRows = st.results.skippedRows ∧
    (processRow env st row).calls = st.calls ∧
    (processRow env st row).processedCombinations = st.processedCombinations ∧
    (processRow env st row).stock = st.stock := by
  have hres : resolveLocation env sku (sheetLocationOf row)
      = .failures ("Skipped SKU " ++ sku ++ ": Inventory Location is required when \"All Locations\" is selected")
          "Inventory Location is required for All Locations mode" := by
    rw [hblank]
    simp [resolveLocation, hmode]
  have hdrop : (sku == "" || sku == "SKU") = false := by
    simp only [Bool.or_eq_false_iff, beq_eq_false_iff_ne, ne_eq]
    exact ⟨h1, h2⟩
  have hstep : stepPre env st.processedCombinations row
      = .failedPre ("Skipped SKU " ++ sku ++ ": Inventory Location is required when \"All Locations\" is selected")
          "Inventory Location is required for All Locations mode" := by
    simp only [stepPre, hsku, hdrop, Bool.false_eq_true, if_false, hq, hres]
  rw [processRow_char, hstep]
  simp [applyOutcome, failRow]

/-- An all-locations environment with an empty directory. -/
def w7Env : Env :=
  { locationId := "ALL_LOCATIONS"
    selectedLocationName := ""
    allLocations := []
    catalog := fun _ => none
    mutErrors := fun _ _ _ => [] }

/-- C7 witness at a concrete input. -/
theorem blank_location_all_mode_fails_witness :
    (processRow w7Env wState wRow).results.failedRows
        = wState.results.failedRows ++ [(wRow, "Inventory Location is required for All Locations mode")] ∧
    (processRow w7Env wState wRow).results.errors
        = wState.results.errors
          ++ ["Skipped SKU " ++ "A1" ++ ": Inventory Location is required when \"All Locations\" is selected"] ∧
    (processRow w7Env wState wRow).results.updated = wState.results.updated ∧
    (processRow w7Env wState wRow).results.skippedRows = wState.results.skippedRows ∧
    (processRow w7Env wState wRow).calls = wState.calls ∧
    (processRow w7Env wState wRow).processedCombinations = wState.processedCombinations ∧
    (processRow w7Env wState wRow).stock = wState.stock :=
  blank_location_all_mode_fails w7Env wState wRow "A1" 5 rfl rfl (by decide) (by decide) rfl rfl

/-- C7 counterexample to the claim as frozen: the blank-location failure
reason the code uses is not "please add proper location", and in
single-location mode a blank location does not fail at all (here the row is
skipped, failing nothing). -/
theorem blank_location_reason_counterexample :
    (reconcile w7Env wStock [wRow]).results.failedRows
        = [(wRow, "Inventory Location is required for All Locations mode")] ∧
    ¬ ((wRow, "please add proper location")
        ∈ (reconcile w7Env wStock [wRow]).results.failedRows) ∧
    (reconcile wEnv wStock [wRow]).results.failedRows = [] ∧
    (reconcile wEnv wStock [wRow]).results.skippedRows
        = [(wRow, "Quantity already matches")] := by
  refine ⟨?_, ?_, ?_, ?_⟩ <;> decide

/-- C9.  In single-location mode a row with a missing, blank or
whitespace-only Inventory Location is not failed at the location stage:
resolution succeeds with the selected location id and name as the target,
the duplicate key over the selected name is recorded, and (when the key is
fresh) the variant lookup is issued. -/
theorem single_mode_blank_location_proceeds (env : Env) (st : EngineState) (row : ImportRow)
    (sku : String) (quantity : Int)
    (hmode : env.locationId ≠ "ALL_LOCATIONS")
    (hsku : row.sku = some sku) (h1 : sku ≠ "") (h2 : sku ≠ "SKU")
    (hq : rowQuantity row = some quantity)
    (hblank : sheetLocationOf row = "") :
    resolveLocation env sku (sheetLocationOf row)
        = .resolved env.locationId env.selectedLocationName ∧
    (sku ++ "|" ++ env.selectedLocationName) ∈ (processRow env st row).processedCombinations ∧
    (st.processedCombinations.contains (sku ++ "|" ++ env.selectedLocationName) = false →
      Call.variantLookup sku ∈ (processRow env st row).calls) := by
  have hm : (env.locationId == "ALL_LOCATIONS") = false := by simp [hmode]
  have hres : resolveLocation env sku (sheetLocationOf row)
      = .resolved env.locationId env.selectedLocationName := by
    rw [hblank]
    simp [resolveLocation, hm]
  refine ⟨hres, ?_, ?_⟩
  · rw [processRow_processed]
    unfold nextProcessed
    rw [stepPre_eval env st.processedCombinations row sku quantity env.locationId
      env.selectedLocationName hsku h1 h2 hq hres]
    cases hdup : st.processedCombinations.contains (sku ++ "|" ++ env.selectedLocationName) with
    | true =>
      simp only [hdup, if_true]
      simpa using hdup
    | false =>
      simp only [hdup, Bool.false_eq_true, if_false]
      cases hc : env.catalog sku with
      | none => simp
      | some vd =>
        cases hf : vd.levelLocations.find? (fun l => l == env.locationId) with
        | some l => simp [hf]
        | none => simp [hf]
  · intro hdup
    rw [processRow_char]
    rw [stepPre_eval env st.processedCombinations row sku quantity env.locationId
      env.selectedLocationName hsku h1 h2 hq hres]
    simp only [hdup, Bool.false_eq_true, if_false]
    cases hc : env.catalog sku with
    | none => simp [applyOutcome, failRow]
    | some vd =>
      cases hf : vd.levelLocations.find? (fun l => l == env.locationId) with
      | none => simp [hf, applyOutcome, failRow]
      | some l =>
        simp only [hf, applyOutcome]
        split
        · simp [skipRow]
        · cases env.mutErrors vd.inventoryItemId env.locationId quantity with
          | nil => simp
          | cons m ms => simp [failRow]

/-- C9 witness at a concrete input. -/
theorem single_mode_blank_location_proceeds_witness :
    resolveLocation wEnv "A1" (sheetLocationOf wRow)
        = .resolved wEnv.locationId wEnv.selectedLocationName ∧
    ("A1" ++ "|" ++ wEnv.selectedLocationName) ∈ (processRow wEnv wState wRow).processedCombinations ∧
    Call.variantLookup "A1" ∈ (processRow wEnv wState wRow).calls :=
  ⟨(single_mode_blank_location_proceeds wEnv wState wRow "A1" 5 (by decide) rfl
      (by decide) (by decide) rfl rfl).1,
   (single_mode_blank_location_proceeds wEnv wState wRow "A1" 5 (by decide) rfl
      (by decide) (by decide) rfl rfl).2.1,
   (single_mode_blank_location_proceeds wEnv wState wRow "A1" 5 (by decide) rfl
      (by decide) (by decide) rfl rfl).2.2 (by decide)⟩

/-- C8.  Per-variant emission of the export flattener: under a specific
location filter a variant with no matching level emits nothing, and
otherwise one row per matching level; with no filter, a variant with no
levels emits exactly one N/A placeholder, and otherwise one row per level. -/
theorem variant_row_emission (title : String) (variant : ExportVariant) :
    (∀ lid, variant.inventoryLevels.filter (fun edge => edge.locationId == lid) = [] →
      variantRows (some lid) title variant = []) ∧
    (∀ lid, variantRows (some lid) title variant
      = (variant.inventoryLevels.filter (fun edge => edge.locationId == lid)).map
          (levelRow title variant)) ∧
    (variant.inventoryLevels = [] →
      variantRows none title variant = [placeholderRow title variant]) ∧
    (variant.inventoryLevels ≠ [] →
      variantRows none title variant = variant.inventoryLevels.map (levelRow title variant)) := by
  refine ⟨?_, ?_, ?_, ?_⟩
  · intro lid hempty
    simp [variantRows, hempty]
  · intro lid
    cases hf : variant.inventoryLevels.filter (fun edge => edge.locationId == lid) with
    | nil => simp [variantRows, hf]
    | cons a l => simp [variantRows, hf]
  · intro h
    simp [variantRows, h]
  · intro h
    cases hl : variant.inventoryLevels with
    | nil => exact absurd hl h
    | cons a l => simp [variantRows, hl]

/-- A variant with one level at gid1. -/
def w8Variant : ExportVariant :=
  { sku := some "A1"
    selectedOptions := ["Red"]
    inventoryLevels := [{ locationId := "gid1", locationName := "Main", quantities := [{ quantity := 10 }] }] }

/-- A variant with no levels. -/
def w8EmptyVariant : ExportVariant :=
  { sku := some "B2", selectedOptions := [], inventoryLevels := [] }

/-- C8 witness at concrete inputs covering all four parts. -/
theorem variant_row_emission_witness :
    variantRows (some "gid2") "Shirt" w8Variant = [] ∧
    variantRows (some "gid1") "Shirt" w8Variant
      = (w8Variant.inventoryLevels.filter (fun edge => edge.locationId == "gid1")).map
          (levelRow "Shirt" w8Variant) ∧
    variantRows none "Shirt" w8EmptyVariant = [placeholderRow "Shirt" w8EmptyVariant] ∧
    variantRows none "Shirt" w8Variant = w8Variant.inventoryLevels.map (levelRow "Shirt" w8Variant) :=
  ⟨(variant_row_emission "Shirt" w8Variant).1 "gid2" (by decide),
   (variant_row_emission "Shirt" w8Variant).2.1 "gid1",
   (variant_row_emission "Shirt" w8EmptyVariant).2.2.1 rfl,
   (variant_row_emission "Shirt" w8Variant).2.2.2 (by decide)⟩

/-- C6 (amended).  When distinct SKUs resolve to distinct inventory items
and directory location names are consistent per location id, a second
reconcile of the same rows in the same mode against the stock left by the
first run updates nothing, reproduces the failed rows exactly, and skips
once for every first-run skip or update. -/
theorem idempotence_second_run (env : Env) (w0 : Stock) (rows : List ImportRow)
    (H1 : ∀ s1 s2 vd1 vd2, env.catalog s1 = some vd1 → env.catalog s2 = some vd2 →
        vd1.inventoryItemId = vd2.inventoryItemId → s1 = s2)
    (H2 : ∀ e1, e1 ∈ env.allLocations → ∀ e2, e2 ∈ env.allLocations →
        e1.id = e2.id → e1.name = e2.name) :
    (reconcile env (reconcile env w0 rows).stock rows).results.updated = 0 ∧
    (reconcile env (reconcile env w0 rows).stock rows).results.failedRows
      = (reconcile env w0 rows).results.failedRows ∧
    (reconcile env (reconcile env w0 rows).stock rows).results.skippedRows.length
      = (reconcile env w0 rows).results.skippedRows.length
        + (reconcile env w0 rows).results.updated := by
  have hd := distinctTrace_of_inj env H1 H2 rows []
  obtain ⟨hu, ⟨F, hf1, hf2⟩, ⟨n, hs1, hs2⟩⟩ :=
    tworun_aux env rows []
      { total := rows.length, updated := 0, errors := [], failedRows := [], skippedRows := [] }
      { total := rows.length, updated := 0, errors := [], failedRows := [], skippedRows := [] }
      [] [] w0 (reconcile env w0 rows) (reconcile env (reconcile env w0 rows).stock rows)
      hd rfl rfl
  refine ⟨hu, ?_, ?_⟩
  · rw [hf1, hf2]
  · dsimp only at hs1 hs2
    simp only [List.length_nil] at hs1 hs2
    omega

/-- C6 witness at a concrete input on which the first run does update. -/
theorem wEnv_catalog_inj :
    ∀ s1 s2 vd1 vd2, wEnv.catalog s1 = some vd1 → wEnv.catalog s2 = some vd2 →
      vd1.inventoryItemId = vd2.inventoryItemId → s1 = s2 := by
  intro s1 s2 vd1 vd2 hA hB _
  unfold wEnv at hA hB
  dsimp only at hA hB
  split at hA
  · split at hB
    · rename_i c1 c2
      rw [eq_of_beq c1, eq_of_beq c2]
    · exact Option.noConfusion hB
  · exact Option.noConfusion hA

theorem idempotence_second_run_witness :
    (reconcile wEnv (reconcile wEnv (fun _ _ => 3) [wRow]).stock [wRow]).results.updated = 0 ∧
    (reconcile wEnv (reconcile wEnv (fun _ _ => 3) [wRow]).stock [wRow]).results.failedRows
      = (reconcile wEnv (fun _ _ => 3) [wRow]).results.failedRows ∧
    (reconcile wEnv (reconcile wEnv (fun _ _ => 3) [wRow]).stock [wRow]).results.skippedRows.length
      = (reconcile wEnv (fun _ _ => 3) [wRow]).results.skippedRows.length
        + (reconcile wEnv (fun _ _ => 3) [wRow]).results.updated :=
  idempotence_second_run wEnv (fun _ _ => 3) [wRow] wEnv_catalog_inj (by decide)

/-- An environment in which two distinct SKUs resolve to the same inventory
item (the SKU-uniqueness limitation the spec itself flags). -/
def c6Env : Env :=
  { locationId := "gid1"
    selectedLocationName := "Main"
    allLocations := [{ id := "gid1", name := "Main" }]
    catalog := fun s =>
      if s == "A1" || s == "B1" then some { inventoryItemId := "item1", levelLocations := ["gid1"] }
      else none
    mutErrors := fun _ _ _ => [] }

/-- C6 counterexample to the claim as frozen: with two rows whose distinct
SKUs alias the same inventory item and location, each run sets the shared
pair twice, so the second run still updates twice instead of zero times. -/
theorem idempotence_claim_counterexample :
    (reconcile c6Env (fun _ _ => 9)
        [{ sku := some "A1", quantityAvailable := some "5", inventoryLocation := none },
         { sku := some "B1", quantityAvailable := some "7", inventoryLocation := none }]).results.updated
      = 2 ∧
    (reconcile c6Env
        (reconcile c6Env (fun _ _ => 9)
          [{ sku := some "A1", quantityAvailable := some "5", inventoryLocation := none },
           { sku := some "B1", quantityAvailable := some "7", inventoryLocation := none }]).stock
        [{ sku := some "A1", quantityAvailable := some "5", inventoryLocation := none },
         { sku := some "B1", quantityAvailable := some "7", inventoryLocation := none }]).results.updated
      = 2 := by
  refine ⟨?_, ?_⟩ <;> decide
